import Mathlib

/-!
Shallow embedding of the terraria-server setup scripts
(`setup_terraria.py`, `instalar_playit.py`) and proofs about them.

Python strings are modelled as `List Char`; machine effects (HTTP requests,
sleeps, file writes, subprocess signals) are modelled as explicit data
returned by the embedded functions.  Each embedded definition is named after
the source function it translates.
-/

namespace TerrariaSetup

/-- Convert a Lean string literal to the `List Char` model of Python strings. -/
def str (s : String) : List Char := s.data

/-- Boolean prefix test on character lists (model of Python `str.startswith`,
used internally to model substring search). -/
def pfx : List Char → List Char → Bool
  | [], _ => true
  | _ :: _, [] => false
  | a :: as, b :: bs => a == b && pfx as bs

/-- Number of positions of `s` at which the pattern `job` occurs
(model of counting occurrences of a substring; `0 <` it iff Python `in`). -/
def countOcc (job : List Char) : List Char → Nat
  | [] => 0
  | c :: rest => (if pfx job (c :: rest) then 1 else 0) + countOcc job rest

/-- Model of the Python `in` substring test (for non-empty patterns). -/
def pyIn (sub s : List Char) : Bool := decide (0 < countOcc sub s)

/-- Model of Python `str.strip()`: drop whitespace from both ends. -/
def pyStrip (s : List Char) : List Char :=
  (((s.dropWhile Char.isWhitespace).reverse.dropWhile Char.isWhitespace)).reverse

/-- Worker for `pySplit`: Python `str.split(sep)` with non-empty separator
`c0 :: sr`, accumulating the current fragment in `acc` (reversed).  `fuel`
bounds the recursion; callers pass `s.length + 1`, which always suffices. -/
def splitSepGo (c0 : Char) (sr : List Char) : Nat → List Char → List Char → List (List Char)
  | 0, acc, s => [acc.reverse ++ s]
  | _ + 1, acc, [] => [acc.reverse]
  | fuel + 1, acc, c :: rest =>
    if pfx (c0 :: sr) (c :: rest) then
      acc.reverse :: splitSepGo c0 sr fuel [] (rest.drop sr.length)
    else
      splitSepGo c0 sr fuel (c :: acc) rest

/-- Model of Python `str.split(sep)` for a non-empty separator: splits at each
non-overlapping, left-to-right occurrence of `sep`. -/
def pySplit (sep s : List Char) : List (List Char) :=
  match sep with
  | [] => [s]
  | c0 :: sr => splitSepGo c0 sr (s.length + 1) [] s

/-- Model of Python `str.split(sep, 1)` at the first `':'`:
the part before the first colon and the part after it. -/
def pySplitColon1 (s : List Char) : List Char × List Char :=
  (s.takeWhile (fun c => c != ':'), (s.dropWhile (fun c => c != ':')).drop 1)

/-- Model of Python `str.isdigit()` for ASCII input: non-empty and all digits. -/
def pyIsdigit (s : List Char) : Bool := !s.isEmpty && s.all Char.isDigit

/-! ## Downloader (`download_file`, `setup_terraria.py` lines 120-140) -/

/-- Outcome of one HTTP attempt of `download_file`:
the request succeeds; it fails before the destination file is opened
(`requests.get` / `raise_for_status` raises); or it fails in the middle of the
body, after part of the file has been written. -/
inductive AttemptOutcome
  | success
  | failEarly
  | failMid
  deriving DecidableEq

/-- State of the file at the download destination path. -/
inductive FileState
  | absent
  | halfWritten
  | complete
  deriving DecidableEq

instance : DecidableEq (Except Unit Unit) := fun a b =>
  match a, b with
  | Except.ok (), Except.ok () => Decidable.isTrue rfl
  | Except.error (), Except.error () => Decidable.isTrue rfl
  | Except.ok (), Except.error () => Decidable.isFalse (fun hab => Except.noConfusion hab)
  | Except.error (), Except.ok () => Decidable.isFalse (fun hab => Except.noConfusion hab)

/-- Observable result of a `download_file` run: how many HTTP attempts were
performed, the sequence of `time.sleep` durations (in seconds, in order),
whether the call returned normally (`ok`) or raised `ServerError` (`error`),
and the final state of the destination file. -/
structure DlResult where
  attempts : Nat
  sleeps : List Nat
  result : Except Unit Unit
  file : FileState
  deriving DecidableEq

/-- The retry loop of `download_file`: `i` is the value of the Python `attempt`
index for the next attempt, `remaining` the number of loop iterations left,
`fs` the current state of the destination file.  On a failed attempt that is
not the last, sleeps `2 ^ attempt` seconds and retries; on the last failed
attempt raises; a successful attempt writes the full file and returns. -/
def dlAux (oc : Nat → AttemptOutcome) : Nat → Nat → FileState → DlResult
  | _, 0, fs => ⟨0, [], Except.ok (), fs⟩
  | i, r + 1, fs =>
    match oc i with
    | AttemptOutcome.success => ⟨1, [], Except.ok (), FileState.complete⟩
    | o =>
      let fs' := match o with
        | AttemptOutcome.failMid => FileState.halfWritten
        | _ => fs
      if r = 0 then ⟨1, [], Except.error (), fs'⟩
      else
        let d := dlAux oc (i + 1) r fs'
        ⟨d.attempts + 1, 2 ^ i :: d.sleeps, d.result, d.file⟩

/-- Model of `download_file(url, destination, max_retries)`: runs the
`for attempt in range(max_retries)` loop, where `oc attempt` is the outcome of
the HTTP attempt with that index and `fs` the initial state of the
destination path. -/
def download_file (oc : Nat → AttemptOutcome) (max_retries : Nat) (fs : FileState) : DlResult :=
  dlAux oc 0 max_retries fs

/-- One unfolding step of `dlAux` on a failed, non-final attempt. -/
lemma dlAux_fail_step (oc : Nat → AttemptOutcome) (i r : Nat) (fs : FileState)
    (ho : oc i ≠ AttemptOutcome.success) :
    dlAux oc i (r + 1 + 1) fs =
      (let d := dlAux oc (i + 1) (r + 1)
        (match oc i with | AttemptOutcome.failMid => FileState.halfWritten | _ => fs)
       ⟨d.attempts + 1, 2 ^ i :: d.sleeps, d.result, d.file⟩) := by
  cases hoc : oc i with
  | success => exact absurd hoc ho
  | failEarly => simp [dlAux, hoc]
  | failMid => simp [dlAux, hoc]

lemma dlAux_allFail (oc : Nat → AttemptOutcome) (h : ∀ j, oc j ≠ AttemptOutcome.success) :
    ∀ r i fs, (dlAux oc i (r + 1) fs).attempts = r + 1 ∧
      (dlAux oc i (r + 1) fs).sleeps = (List.range r).map (fun k => 2 ^ (i + k)) ∧
      (dlAux oc i (r + 1) fs).result = Except.error () := by
  intro r
  induction r with
  | zero =>
    intro i fs
    cases ho : oc i with
    | success => exact absurd ho (h i)
    | failEarly => simp [dlAux, ho]
    | failMid => simp [dlAux, ho]
  | succ r ih =>
    intro i fs
    rw [dlAux_fail_step oc i r fs (h i)]
    have hrec := ih (i + 1)
      (match oc i with | AttemptOutcome.failMid => FileState.halfWritten | _ => fs)
    refine ⟨?_, ?_, ?_⟩
    · show (dlAux oc (i + 1) (r + 1) _).attempts + 1 = r + 1 + 1
      rw [hrec.1]
    · show 2 ^ i :: (dlAux oc (i + 1) (r + 1) _).sleeps = _
      rw [hrec.2.1, List.range_succ_eq_map, List.map_cons, List.map_map]
      refine congrArg₂ _ (by rw [Nat.add_zero]) (List.map_congr_left ?_)
      intro k _
      simp only [Function.comp_apply]
      exact congrArg (fun n => 2 ^ n) (by omega)
    · exact hrec.2.2

/-- C1: for every retry count `N ≥ 1` and a download whose every HTTP attempt
fails with a network-level error, `download_file` performs exactly `N`
attempts, sleeping `2 ^ i` seconds after the `i`-th failed attempt for
`i = 0 .. N-2` (delays `1, 2, 4, …, 2 ^ (N-2)` seconds between consecutive
attempts), and then raises `ServerError`. -/
theorem download_file_retry_backoff (oc : Nat → AttemptOutcome) (fs : FileState) (N : Nat)
    (hN : 1 ≤ N) (hfail : ∀ j, oc j ≠ AttemptOutcome.success) :
    (download_file oc N fs).attempts = N ∧
    (download_file oc N fs).sleeps = (List.range (N - 1)).map (fun i => 2 ^ i) ∧
    (download_file oc N fs).result = Except.error () := by
  obtain ⟨r, rfl⟩ : ∃ r, N = r + 1 := ⟨N - 1, by omega⟩
  have hmain := dlAux_allFail oc hfail r 0 fs
  refine ⟨hmain.1, ?_, hmain.2.2⟩
  show (dlAux oc 0 (r + 1) fs).sleeps = _
  rw [hmain.2.1, Nat.add_sub_cancel]
  exact List.map_congr_left (fun k _ => by rw [Nat.zero_add])

/-- Witness for `download_file_retry_backoff` at `N = 3` with every attempt
failing: 3 attempts, sleeps of 1 and 2 seconds, then failure. -/
theorem download_file_retry_backoff_witness :
    1 ≤ 3 ∧ ((download_file (fun _ => AttemptOutcome.failEarly) 3 FileState.absent).attempts = 3 ∧
      (download_file (fun _ => AttemptOutcome.failEarly) 3 FileState.absent).sleeps = [1, 2] ∧
      (download_file (fun _ => AttemptOutcome.failEarly) 3 FileState.absent).result =
        Except.error ()) := by
  have hth := download_file_retry_backoff (fun _ => AttemptOutcome.failEarly) FileState.absent 3
    (by decide) (fun j hj => AttemptOutcome.noConfusion hj)
  exact ⟨by decide, hth.1, by rw [hth.2.1]; decide, hth.2.2⟩

/-- C10: calling `download_file` with `max_retries = 0` performs zero HTTP
attempts, sleeps never, leaves the destination path untouched, and returns
normally rather than raising a fetch failure. -/
theorem download_file_zero_retries (oc : Nat → AttemptOutcome) (fs : FileState) :
    download_file oc 0 fs = ⟨0, [], Except.ok (), fs⟩ := rfl

/-! ## Tunnel bring-up line scan (`setup_ngrok`, `setup_terraria.py` lines 217-232)

The standard output of the ngrok client is modelled as a list of timestamped lines
`(t, s)`: the `readline` call that consumes that line returns at elapsed time
`max now t`, where `now` is the elapsed time when `readline` was called
(a blocking `readline` waits until the line is available).  `blocks = true`
models a stream that, once the listed lines are consumed, keeps the pipe open
while emitting nothing, so the next blocking `readline` never returns;
`blocks = false` models a stream that reaches end-of-file, after which
`readline` returns `""` immediately and the loop spins until the wall-clock
deadline check fails. -/

/-- The match test of the scan loop:
`"started tunnel" in line and "url=tcp://" in line`. -/
def isTunnelLine (line : List Char) : Bool :=
  pyIn (str "started tunnel") line && pyIn (str "url=tcp://") line

/-- The address extraction of the scan loop:
`line.split("url=tcp://")[1].strip()`. -/
def extractUrl (line : List Char) : List Char :=
  pyStrip ((pySplit (str "url=tcp://") line).getD 1 [])

/-- Outcome of the `while time.time() - start_time < 30` scan loop:
the value of `tunnel_url` (`none` if the loop ended without a match)
and the elapsed time at which the loop ended. -/
structure ScanOut where
  url : Option (List Char)
  finish : Nat
  deriving DecidableEq

/-- The scan loop itself.  Returns `none` when the loop never terminates
(blocking `readline` on a silent open stream). -/
def scanLoop : List (Nat × List Char) → Nat → Bool → Option ScanOut
  | evs, now, blocks =>
    if 30 ≤ now then some ⟨none, now⟩
    else
      match evs with
      | [] => if blocks then none else some ⟨none, 30⟩
      | (t, s) :: rest =>
        let now' := max now t
        if isTunnelLine s then some ⟨some (extractUrl s), now'⟩
        else scanLoop rest now' blocks

/-- Observable outcome of the scan phase of `setup_ngrok`: whether
`ngrok_process.terminate()` was called, the session address returned
(`none` when `ServerError` was raised instead), and the elapsed time. -/
structure NgrokScanResult where
  terminated : Bool
  address : Option (List Char)
  finish : Nat
  deriving DecidableEq

/-- Lines 217-232 of `setup_terraria.py`: run the scan loop from elapsed time
0, then the `if not tunnel_url` check — an unset or empty `tunnel_url`
(both falsy) terminates the subprocess and raises `ServerError`; otherwise
the address is handed to `send_to_discord` and returned.  `none` means the
scan never terminates. -/
def setup_ngrok_scan (evs : List (Nat × List Char)) (blocks : Bool) : Option NgrokScanResult :=
  match scanLoop evs 0 blocks with
  | none => none
  | some o =>
    match o.url with
    | none => some ⟨true, none, o.finish⟩
    | some u => if u.isEmpty then some ⟨true, none, o.finish⟩ else some ⟨false, some u, o.finish⟩

lemma scanLoop_noMatch (evs : List (Nat × List Char)) :
    ∀ now, now ≤ 31 → (∀ p ∈ evs, isTunnelLine p.2 = false) → (∀ p ∈ evs, p.1 ≤ 31) →
      ∃ tf, scanLoop evs now false = some ⟨none, tf⟩ ∧ 30 ≤ tf ∧ tf ≤ 31 := by
  induction evs with
  | nil =>
    intro now h31 _ _
    by_cases h : 30 ≤ now
    · exact ⟨now, by rw [scanLoop]; simp [h], h, h31⟩
    · exact ⟨30, by rw [scanLoop]; simp [h], Nat.le_refl 30, by omega⟩
  | cons p rest ih =>
    intro now h31 hm ht
    by_cases h : 30 ≤ now
    · exact ⟨now, by rw [scanLoop]; simp [h], h, h31⟩
    · obtain ⟨t, s⟩ := p
      have hs : isTunnelLine s = false := hm (t, s) (List.mem_cons_self _ _)
      have ht' : t ≤ 31 := ht (t, s) (List.mem_cons_self _ _)
      obtain ⟨tf, heq, h30, h31'⟩ := ih (max now t) (max_le h31 ht')
        (fun q hq => hm q (List.mem_cons_of_mem _ hq))
        (fun q hq => ht q (List.mem_cons_of_mem _ hq))
      refine ⟨tf, ?_, h30, h31'⟩
      have hstep : scanLoop ((t, s) :: rest) now false = scanLoop rest (max now t) false := by
        rw [scanLoop]
        simp [h, hs]
      rw [hstep]
      exact heq

/-- C2 (amended): for a client that never emits a matching line, once the scan
loop observes the deadline it terminates the subprocess and raises
`ServerError`; the failure happens within 30±1 seconds of launch provided the
stream does not block past the deadline — each listed line is available by
elapsed time 31 and the stream then reaches end-of-file.  (As stated the claim
fails: a blocking `readline` can return arbitrarily late, or never.) -/
theorem setup_ngrok_timeout (evs : List (Nat × List Char))
    (hm : ∀ p ∈ evs, isTunnelLine p.2 = false)
    (ht : ∀ p ∈ evs, p.1 ≤ 31) :
    ∃ tf, setup_ngrok_scan evs false = some ⟨true, none, tf⟩ ∧ 30 ≤ tf ∧ tf ≤ 31 := by
  obtain ⟨tf, heq, h1, h2⟩ := scanLoop_noMatch evs 0 (by omega) hm ht
  exact ⟨tf, by simp [setup_ngrok_scan, heq], h1, h2⟩

/-- Witness for `setup_ngrok_timeout`: a client that emits nothing and closes
its stream immediately; the failure lands at elapsed time 30. -/
theorem setup_ngrok_timeout_witness :
    ∃ tf, setup_ngrok_scan [] false = some ⟨true, none, tf⟩ ∧ 30 ≤ tf ∧ tf ≤ 31 :=
  setup_ngrok_timeout []
    (fun p hp => absurd hp (List.not_mem_nil p))
    (fun p hp => absurd hp (List.not_mem_nil p))

/-- Counterexample to C2 as stated: a client whose only (non-matching) line
arrives at elapsed time 100.  The blocking `readline` returns only then, so
the subprocess is terminated and `ServerError` raised at elapsed time 100 —
not within 30±1 seconds of launch. -/
theorem setup_ngrok_timeout_counterexample :
    setup_ngrok_scan [(100, str "boot")] false = some ⟨true, none, 100⟩ ∧ ¬(100 ≤ 31) := by
  decide

/-- C3: for a client output stream containing the line
`t=... msg="started tunnel" url=tcp://1.2.3.4:5000` before the deadline,
the scan returns a session whose address is exactly `"1.2.3.4:5000"`. -/
theorem setup_ngrok_address_extraction :
    setup_ngrok_scan
        [(0, str "t=2020-01-01 msg=\"started tunnel\" url=tcp://1.2.3.4:5000")] false =
      some ⟨false, some (str "1.2.3.4:5000"), 0⟩ := by
  decide

/-- Counterexample to C6 as stated: `setup_ngrok` performs no shape check on
the extracted address, so a client line `msg="started tunnel" url=tcp://abc`
yields a returned session address `"abc"` with no `':'` at all. -/
theorem tunnel_address_shape_counterexample :
    setup_ngrok_scan [(0, str "msg=\"started tunnel\" url=tcp://abc")] false =
      some ⟨false, some (str "abc"), 0⟩ ∧ (str "abc").count ':' = 0 := by
  decide

/-- C6 (amended): every session address returned by a successful scan is
non-empty (the `if not tunnel_url` falsy check rejects the empty string);
the `host:port` shape, however, is not validated and depends entirely on the
client output line. -/
theorem tunnel_address_nonempty (evs : List (Nat × List Char)) (blocks : Bool)
    (r : NgrokScanResult) (u : List Char)
    (h : setup_ngrok_scan evs blocks = some r) (hu : r.address = some u) : u ≠ [] := by
  unfold setup_ngrok_scan at h
  cases hs : scanLoop evs 0 blocks with
  | none => rw [hs] at h; exact Option.noConfusion h
  | some o =>
    rw [hs] at h
    dsimp only at h
    cases ho : o.url with
    | none =>
      rw [ho] at h
      dsimp only at h
      simp only [Option.some_inj] at h
      rw [← h] at hu
      exact Option.noConfusion hu
    | some v =>
      rw [ho] at h
      dsimp only at h
      by_cases hv : v.isEmpty
      · rw [if_pos hv] at h
        simp only [Option.some_inj] at h
        rw [← h] at hu
        exact Option.noConfusion hu
      · rw [if_neg hv] at h
        simp only [Option.some_inj] at h
        rw [← h] at hu
        simp only [Option.some_inj] at hu
        subst hu
        intro hnil
        exact hv (by rw [hnil]; rfl)

/-- Witness for `tunnel_address_nonempty` at the concrete stream of C3. -/
theorem tunnel_address_nonempty_witness : str "1.2.3.4:5000" ≠ [] :=
  tunnel_address_nonempty
    [(0, str "t=2020-01-01 msg=\"started tunnel\" url=tcp://1.2.3.4:5000")] false
    ⟨false, some (str "1.2.3.4:5000"), 0⟩ (str "1.2.3.4:5000") (by decide) rfl

/-! ## Notifier (`send_to_discord`, `setup_terraria.py` lines 260-295) -/

/-- The backquote character used around the IP and port embed field values. -/
def btChar : Char := Char.ofNat 96

/-- The Python f-string wrapping of a field value in backquotes. -/
def btq (s : List Char) : List Char := btChar :: (s ++ [btChar])

/-- Observable outcome of a `send_to_discord` call: the list of HTTP POSTs
made (each carrying the IP field value and the port field value of the embed),
whether an error was logged, and whether an exception reached the caller. -/
structure NotifyResult where
  posts : List (List Char × List Char)
  errorLogged : Bool
  raisedToCaller : Bool
  deriving DecidableEq

/-- The body of the `async_send` closure: parse `full_address` at the first
`':'`, reject a missing separator or non-digit port with a `ValueError` that
the enclosing `try` logs and swallows, otherwise POST the embed once;
`deliveryFails` models `requests.post`/`raise_for_status` failing, which is
also caught and only logged. -/
def async_send (deliveryFails : Bool) (full_address : List Char) : NotifyResult :=
  if pyIn (str ":") full_address = false then ⟨[], true, false⟩
  else
    let ip := (pySplitColon1 full_address).1
    let port := (pySplitColon1 full_address).2
    if pyIsdigit port = false then ⟨[], true, false⟩
    else if deliveryFails then ⟨[(btq ip, btq port)], true, false⟩
    else ⟨[(btq ip, btq port)], false, false⟩

/-- Model of `send_to_discord(webhook, full_address)`: a missing webhook is a no-op;
otherwise the work happens on a daemon thread, so nothing ever propagates to
the caller. -/
def send_to_discord (webhook : Option (List Char)) (deliveryFails : Bool)
    (full_address : List Char) : NotifyResult :=
  match webhook with
  | none => ⟨[], false, false⟩
  | some _ => async_send deliveryFails full_address

/-- C7: with a configured endpoint and address `"10.0.0.1:25565"`,
`send_to_discord` produces exactly one POST whose body carries host
`"10.0.0.1"` and port `"25565"`; with a malformed address (no `':'`, or a
non-numeric port) it makes zero POSTs, logs the error and never propagates;
with no endpoint configured it is a no-op making zero POSTs. -/
theorem send_to_discord_spec :
    (∀ w dFail,
      (send_to_discord (some w) dFail (str "10.0.0.1:25565")).posts =
          [(btq (str "10.0.0.1"), btq (str "25565"))] ∧
        (send_to_discord (some w) dFail (str "10.0.0.1:25565")).raisedToCaller = false) ∧
    (∀ w dFail addr, pyIn (str ":") addr = false →
      send_to_discord (some w) dFail addr = ⟨[], true, false⟩) ∧
    (∀ w dFail addr, pyIsdigit (pySplitColon1 addr).2 = false →
      (send_to_discord (some w) dFail addr).posts = [] ∧
        (send_to_discord (some w) dFail addr).errorLogged = true ∧
        (send_to_discord (some w) dFail addr).raisedToCaller = false) ∧
    (∀ dFail addr, send_to_discord none dFail addr = ⟨[], false, false⟩) ∧
    (pyIn (str "10.0.0.1") (btq (str "10.0.0.1")) = true ∧
      pyIn (str "25565") (btq (str "25565")) = true) := by
  refine ⟨?_, ?_, ?_, fun dFail addr => rfl, by decide⟩
  · intro w dFail
    cases dFail <;> exact ⟨rfl, rfl⟩
  · intro w dFail addr h
    simp [send_to_discord, async_send, h]
  · intro w dFail addr h
    by_cases hc : pyIn (str ":") addr = false
    · simp [send_to_discord, async_send, hc]
    · have hc' : pyIn (str ":") addr = true := by
        revert hc; cases pyIn (str ":") addr <;> simp
      simp [send_to_discord, async_send, hc', h]

/-- Witness for `send_to_discord_spec` at the malformed addresses
`"noport"` (no separator) and `"1.2.3.4:99x"` (non-numeric port). -/
theorem send_to_discord_spec_witness :
    pyIn (str ":") (str "noport") = false ∧
      send_to_discord (some (str "hook")) false (str "noport") = ⟨[], true, false⟩ ∧
      pyIsdigit (pySplitColon1 (str "1.2.3.4:99x")).2 = false ∧
      (send_to_discord (some (str "hook")) false (str "1.2.3.4:99x")).posts = [] := by
  refine ⟨by decide, ?_, by decide, ?_⟩
  · exact send_to_discord_spec.2.1 (str "hook") false (str "noport") (by decide)
  · exact (send_to_discord_spec.2.2.1 (str "hook") false (str "1.2.3.4:99x") (by decide)).1

/-! ## Process supervisor (`graceful_shutdown`, `setup_terraria.py` lines 336-346) -/

/-- The two kinds of tracked process objects the shutdown loop recognises
(`subprocess.Popen` and `psutil.Process`). -/
inductive TrackedKind
  | popen
  | psutilProc
  deriving DecidableEq

/-- A tracked process, with flags saying whether its `terminate()` raises and
whether (for a `Popen`) its `wait(timeout=10)` raises `TimeoutExpired`. -/
structure TrackedProc where
  kind : TrackedKind
  terminateRaises : Bool
  waitTimesOut : Bool
  deriving DecidableEq

/-- The body of one iteration of the shutdown loop, before the `except`:
`terminate()` then, for a `Popen`, `wait(timeout=10)`. -/
def terminate_step (p : TrackedProc) : Except Unit Unit :=
  if p.terminateRaises then Except.error ()
  else
    match p.kind with
    | TrackedKind.popen => if p.waitTimesOut then Except.error () else Except.ok ()
    | TrackedKind.psutilProc => Except.ok ()

/-- Whether the iteration for `p` logs an error (its `except` branch fires). -/
def errLogged (p : TrackedProc) : Bool :=
  match terminate_step p with
  | Except.error _ => true
  | Except.ok _ => false

/-- Model of `graceful_shutdown(processes)`: for each tracked process run the
termination attempt inside `try`/`except`, logging (never re-raising) any
error.  The result records, per process in order, that termination was
invoked and whether its error was logged; an `Except.error` overall would
mean an exception escaped the function. -/
def graceful_shutdown : List TrackedProc → Except Unit (List (Bool × Bool))
  | [] => Except.ok []
  | p :: rest =>
    let r := terminate_step p
    let logged := match r with | Except.error _ => true | Except.ok _ => false
    (graceful_shutdown rest).map (fun l => (true, logged) :: l)

/-- C4: for every list of tracked processes — in particular three where one
raises on termination — `graceful_shutdown` invokes termination on every
tracked process and returns without raising; individual termination failures
are logged but never propagated. -/
theorem graceful_shutdown_total (ps : List TrackedProc) :
    graceful_shutdown ps = Except.ok (ps.map (fun p => (true, errLogged p))) := by
  induction ps with
  | nil => rfl
  | cons p rest ih => simp [graceful_shutdown, ih, errLogged, Except.map]

/-! ## Orchestrator exit paths (`main`, `setup_terraria.py` lines 348-403) -/

/-- Actions observable during the unwinding of `main`. -/
inductive Action
  | shutdown
  | logMsg
  | exit (code : Nat)
  deriving DecidableEq

/-- How the `try` body of `main` ends: normal completion of
`server_proc.wait()`, a `ConfigError`, a `ServerError`, a
`KeyboardInterrupt`, an unexpected exception, or a `SystemExit` raised inside
the body (`load_config` calls `sys.exit(1)` on corrupt JSON; `SystemExit` is
not an `Exception`, so no `except` clause catches it). -/
inductive BodyOutcome
  | normal
  | configError
  | serverError
  | keyboardInterrupt
  | otherError
  | sysExit (code : Nat)

/-- The `try`/`except`/`finally` skeleton of `main`: the matching `except`
clause runs first (logging, and `sys.exit(1)` for fatal errors), then the
`finally` block runs `graceful_shutdown(processes)` before any pending
`SystemExit` propagates. -/
def main_run (o : BodyOutcome) : List Action :=
  let handled : List Action × Option Nat :=
    match o with
    | BodyOutcome.normal => ([], none)
    | BodyOutcome.configError => ([Action.logMsg], some 1)
    | BodyOutcome.serverError => ([Action.logMsg], some 1)
    | BodyOutcome.keyboardInterrupt => ([Action.logMsg], none)
    | BodyOutcome.otherError => ([Action.logMsg], some 1)
    | BodyOutcome.sysExit c => ([], some c)
  handled.1 ++ Action.shutdown ::
    (match handled.2 with | some c => [Action.exit c] | none => [])

/-- C5: on every exit path of `main` — normal completion, keyboard interrupt,
or any fatal setup error — the shutdown sequence runs exactly once, and it
runs before the program exits. -/
theorem main_shutdown_once (o : BodyOutcome) :
    ∃ pre post, main_run o = pre ++ Action.shutdown :: post ∧
      Action.shutdown ∉ pre ∧ Action.shutdown ∉ post ∧ ∀ c, Action.exit c ∉ pre := by
  cases o with
  | normal => exact ⟨[], [], rfl, by simp, by simp, by simp⟩
  | configError => exact ⟨[Action.logMsg], [Action.exit 1], rfl, by simp, by simp, by simp⟩
  | serverError => exact ⟨[Action.logMsg], [Action.exit 1], rfl, by simp, by simp, by simp⟩
  | keyboardInterrupt => exact ⟨[Action.logMsg], [], rfl, by simp, by simp, by simp⟩
  | otherError => exact ⟨[Action.logMsg], [Action.exit 1], rfl, by simp, by simp, by simp⟩
  | sysExit c => exact ⟨[], [Action.exit c], rfl, by simp, by simp, by simp⟩

/-! ## Archive cleanup (`setup_terraria_server` lines 142-167,
`setup_ngrok` lines 187-198) -/

/-- Result of a downloader-backed setup step: whether it returned normally,
and the final state of the downloaded archive at its destination path. -/
structure SetupResult where
  result : Except Unit Unit
  zipFile : FileState
  deriving DecidableEq

/-- Model of `setup_terraria_server()`: download, extract, locate and chmod the server
binary — all inside `try`/`finally` whose `finally` runs
`zip_path.unlink(missing_ok=True)` on every exit path. -/
def setup_terraria_server (installed : Bool) (oc : Nat → AttemptOutcome)
    (zipOk binFound : Bool) (fs0 : FileState) : SetupResult :=
  if installed then ⟨Except.ok (), fs0⟩
  else
    let d := download_file oc 3 fs0
    match d.result with
    | Except.error _ => ⟨Except.error (), FileState.absent⟩
    | Except.ok _ =>
      if !zipOk then ⟨Except.error (), FileState.absent⟩
      else if !binFound then ⟨Except.error (), FileState.absent⟩
      else ⟨Except.ok (), FileState.absent⟩

/-- The download/unzip part of `setup_ngrok()`: no `try`/`finally` here —
`zip_path.unlink()` is a plain statement reached only after successful
extraction and chmod, so a fetch failure or a bad archive skips it. -/
def setup_ngrok_install (ngrokPresent : Bool) (oc : Nat → AttemptOutcome)
    (zipOk : Bool) (fs0 : FileState) : SetupResult :=
  if ngrokPresent then ⟨Except.ok (), fs0⟩
  else
    let d := download_file oc 3 fs0
    match d.result with
    | Except.error _ => ⟨Except.error (), d.file⟩
    | Except.ok _ =>
      if !zipOk then ⟨Except.error (), d.file⟩
      else ⟨Except.ok (), FileState.absent⟩

/-- Counterexample to C8 as stated: in the ngrok setup step a successful
download followed by a corrupt archive raises `BadZipFile` before reaching
`zip_path.unlink()`, leaving the fully downloaded archive on disk. -/
theorem archive_cleanup_counterexample :
    setup_ngrok_install false (fun _ => AttemptOutcome.success) false FileState.absent =
        ⟨Except.error (), FileState.complete⟩ ∧
      FileState.complete ≠ FileState.absent := by
  decide

/-- C8 (amended): the Terraria setup step removes the downloaded archive on
every exit path (success, extraction error, missing binary, fetch failure);
the ngrok setup step removes its archive only when it returns successfully —
on a fetch failure or extraction error the (possibly half-written) archive
remains. -/
theorem archive_cleanup (oc : Nat → AttemptOutcome) (zipOk binFound : Bool) (fs0 : FileState) :
    (setup_terraria_server false oc zipOk binFound fs0).zipFile = FileState.absent ∧
    ((setup_ngrok_install false oc zipOk fs0).result = Except.ok () →
      (setup_ngrok_install false oc zipOk fs0).zipFile = FileState.absent) := by
  constructor
  · unfold setup_terraria_server
    cases hd : (download_file oc 3 fs0).result with
    | error e => simp [hd]
    | ok v => cases zipOk <;> cases binFound <;> simp [hd]
  · intro hok
    unfold setup_ngrok_install at hok ⊢
    cases hd : (download_file oc 3 fs0).result with
    | error e => simp [hd] at hok
    | ok v =>
      cases zipOk
      · simp [hd] at hok
      · simp [hd]

/-- Witness for `archive_cleanup`: a Terraria run whose download fails on
every attempt still ends with no archive file; an ngrok run that succeeds
ends with no archive file. -/
theorem archive_cleanup_witness :
    (setup_terraria_server false (fun _ => AttemptOutcome.failEarly) true true
        FileState.absent).zipFile = FileState.absent ∧
      (setup_ngrok_install false (fun _ => AttemptOutcome.success) true
        FileState.absent).zipFile = FileState.absent := by
  have h1 := archive_cleanup (fun _ => AttemptOutcome.failEarly) true true FileState.absent
  have h2 := archive_cleanup (fun _ => AttemptOutcome.success) true true FileState.absent
  exact ⟨h1.1, h2.2 (by decide)⟩

/-! ## Auto-start registration (`add_to_crontab`, `instalar_playit.py` lines 23-39) -/

/-- The cron line built by `add_to_crontab` for script path `p`:
`f"@reboot /usr/bin/python3 {script_path}"`. -/
def cronJob (p : List Char) : List Char := str "@reboot /usr/bin/python3 " ++ p

/-- Model of `add_to_crontab()` as a transformation of the crontab text `cur`:
if `cron_job in current_cron`, leave the crontab unchanged; otherwise install
`current_cron.strip() + "\n" + cron_job + "\n"`. -/
def add_to_crontab (p : List Char) (cur : List Char) : List Char :=
  if pyIn (cronJob p) cur then cur
  else pyStrip cur ++ '\n' :: (cronJob p ++ ['\n'])

lemma pfx_append_right : ∀ j x a : List Char, pfx j x = true → pfx j (x ++ a) = true := by
  intro j
  induction j with
  | nil => intro x a _; rfl
  | cons jc js ih =>
    intro x a h
    cases x with
    | nil => exact absurd h (by simp [pfx])
    | cons c xs =>
      show ((jc == c) && pfx js (xs ++ a)) = true
      have h' : ((jc == c) && pfx js xs) = true := h
      rw [Bool.and_eq_true] at h' ⊢
      exact ⟨h'.1, ih xs a h'.2⟩

lemma pfx_length_le : ∀ j s : List Char, pfx j s = true → j.length ≤ s.length := by
  intro j
  induction j with
  | nil => intro s _; simp
  | cons jc js ih =>
    intro s h
    cases s with
    | nil => exact absurd h (by simp [pfx])
    | cons c cs =>
      have h' : ((jc == c) && pfx js cs) = true := h
      rw [Bool.and_eq_true] at h'
      simpa using Nat.succ_le_succ (ih cs h'.2)

lemma pfx_refl : ∀ j : List Char, pfx j j = true := by
  intro j
  induction j with
  | nil => rfl
  | cons c cs ih =>
    show ((c == c) && pfx cs cs) = true
    rw [beq_self_eq_true, ih]
    rfl

/-- A prefix-match of `j` cannot look across a `'\n'` that `j` does not
contain: matching against `x ++ '\n' :: y` is the same as against `x`. -/
lemma pfx_through_newline : ∀ j x y : List Char, '\n' ∉ j →
    pfx j (x ++ '\n' :: y) = pfx j x := by
  intro j
  induction j with
  | nil => intro x y _; rfl
  | cons jc js ih =>
    intro x y hn
    have hjc : (jc == '\n') = false :=
      beq_eq_false_iff_ne.mpr (fun h => hn (by rw [← h]; exact List.mem_cons_self _ _))
    have hjs : '\n' ∉ js := fun h => hn (List.mem_cons_of_mem _ h)
    cases x with
    | nil =>
      show ((jc == '\n') && pfx js y) = pfx (jc :: js) []
      rw [hjc]
      rfl
    | cons c xs =>
      show ((jc == c) && pfx js (xs ++ '\n' :: y)) = ((jc == c) && pfx js xs)
      rw [ih xs y hjs]

/-- Occurrence counting splits at a `'\n'` the pattern does not contain. -/
lemma countOcc_append_newline (j : List Char) (hne : j ≠ []) (hn : '\n' ∉ j) :
    ∀ x y, countOcc j (x ++ '\n' :: y) = countOcc j x + countOcc j y := by
  intro x
  induction x with
  | nil =>
    intro y
    obtain ⟨jc, js, rfl⟩ := List.exists_cons_of_ne_nil hne
    have hjc : (jc == '\n') = false :=
      beq_eq_false_iff_ne.mpr (fun h => hn (by rw [← h]; exact List.mem_cons_self _ _))
    have hp : pfx (jc :: js) ('\n' :: y) = false := by
      show ((jc == '\n') && pfx js y) = false
      rw [hjc]
      rfl
    show (if pfx (jc :: js) ('\n' :: y) = true then 1 else 0) +
        countOcc (jc :: js) y = countOcc (jc :: js) [] + countOcc (jc :: js) y
    rw [hp]
    simp [countOcc]
  | cons c xs ih =>
    intro y
    show (if pfx j ((c :: xs) ++ '\n' :: y) = true then 1 else 0) +
        countOcc j (xs ++ '\n' :: y) =
      ((if pfx j (c :: xs) = true then 1 else 0) + countOcc j xs) + countOcc j y
    rw [pfx_through_newline j (c :: xs) y hn, ih y]
    omega

lemma countOcc_short : ∀ j s : List Char, s.length < j.length → countOcc j s = 0 := by
  intro j s
  induction s with
  | nil => intro _; rfl
  | cons c cs ih =>
    intro h
    have hp : pfx j (c :: cs) = false := by
      cases hp : pfx j (c :: cs)
      · rfl
      · have := pfx_length_le j (c :: cs) hp
        omega
    show (if pfx j (c :: cs) = true then 1 else 0) + countOcc j cs = 0
    rw [hp, ih (by simp only [List.length_cons] at h; omega)]
    rfl

lemma countOcc_self (j : List Char) (hne : j ≠ []) : countOcc j j = 1 := by
  obtain ⟨jc, js, rfl⟩ := List.exists_cons_of_ne_nil hne
  show (if pfx (jc :: js) (jc :: js) = true then 1 else 0) + countOcc (jc :: js) js = 1
  rw [pfx_refl, countOcc_short (jc :: js) js (by simp)]
  rfl

lemma countOcc_zero_left (j : List Char) : ∀ b a, countOcc j (b ++ a) = 0 → countOcc j b = 0 := by
  intro b a
  induction b with
  | nil => intro _; rfl
  | cons c bs ih =>
    intro h
    have h' : (if pfx j (c :: (bs ++ a)) = true then 1 else 0) + countOcc j (bs ++ a) = 0 := h
    have hp : pfx j (c :: bs) = false := by
      cases hp : pfx j (c :: bs)
      · rfl
      · exfalso
        have hap := pfx_append_right j (c :: bs) a hp
        rw [show (c :: bs) ++ a = c :: (bs ++ a) from rfl] at hap
        rw [hap] at h'
        simp at h'
    show (if pfx j (c :: bs) = true then 1 else 0) + countOcc j bs = 0
    rw [hp, ih (by omega)]
    rfl

lemma countOcc_zero_right (j : List Char) : ∀ a b, countOcc j (a ++ b) = 0 → countOcc j b = 0 := by
  intro a
  induction a with
  | nil => intro b h; exact h
  | cons c as ih =>
    intro b h
    have h' : (if pfx j (c :: (as ++ b)) = true then 1 else 0) + countOcc j (as ++ b) = 0 := h
    exact ih b (by omega)

lemma dropWhile_decomp (q : Char → Bool) : ∀ s : List Char, ∃ a, a ++ s.dropWhile q = s := by
  intro s
  induction s with
  | nil => exact ⟨[], rfl⟩
  | cons c cs ih =>
    cases hq : q c
    · exact ⟨[], by simp [List.dropWhile, hq]⟩
    · obtain ⟨a, ha⟩ := ih
      exact ⟨c :: a, by simp [List.dropWhile, hq, ha]⟩

/-- Stripping whitespace cannot create an occurrence of the pattern. -/
lemma countOcc_strip_zero (j s : List Char) (h : countOcc j s = 0) :
    countOcc j (pyStrip s) = 0 := by
  obtain ⟨a, ha⟩ := dropWhile_decomp Char.isWhitespace s
  have hu : countOcc j (s.dropWhile Char.isWhitespace) = 0 :=
    countOcc_zero_right j a _ (by rw [ha]; exact h)
  obtain ⟨b, hb⟩ := dropWhile_decomp Char.isWhitespace (s.dropWhile Char.isWhitespace).reverse
  have huv : s.dropWhile Char.isWhitespace =
      ((s.dropWhile Char.isWhitespace).reverse.dropWhile Char.isWhitespace).reverse ++
        b.reverse := by
    have hc := congrArg List.reverse hb
    rw [List.reverse_append, List.reverse_reverse] at hc
    exact hc.symm
  rw [huv] at hu
  exact countOcc_zero_left j _ _ hu

lemma pyIn_eq_true_iff (sub s : List Char) : pyIn sub s = true ↔ 0 < countOcc sub s := by
  simp [pyIn]

lemma cronJob_ne_nil (p : List Char) : cronJob p ≠ [] := by
  have hc : cronJob p = '@' :: (str "reboot /usr/bin/python3 " ++ p) := rfl
  rw [hc]
  exact List.cons_ne_nil _ _

lemma cronJob_no_newline (p : List Char) (hp : '\n' ∉ p) :
    '\n' ∉ cronJob p := by
  intro hmem
  unfold cronJob at hmem
  rcases List.mem_append.mp hmem with h | h
  · exact absurd h (by decide)
  · exact hp h

lemma add_to_crontab_noop (p cur : List Char) (h : pyIn (cronJob p) cur = true) :
    add_to_crontab p cur = cur := by
  unfold add_to_crontab
  rw [if_pos h]

/-- The crontab text written by a registering call holds exactly one more
occurrence of the entry than the stripped previous text. -/
lemma countOcc_add_new (p s : List Char) (hn : '\n' ∉ cronJob p) :
    countOcc (cronJob p) (pyStrip s ++ '\n' :: (cronJob p ++ ['\n'])) =
      countOcc (cronJob p) (pyStrip s) + 1 := by
  have hne : cronJob p ≠ [] := cronJob_ne_nil p
  have h1 := countOcc_append_newline (cronJob p) hne hn (pyStrip s) (cronJob p ++ ['\n'])
  have h2 := countOcc_append_newline (cronJob p) hne hn (cronJob p) []
  rw [h1, h2, countOcc_self (cronJob p) hne]
  simp [countOcc]

lemma add_to_crontab_contains (p s : List Char) (hp : '\n' ∉ p) :
    pyIn (cronJob p) (add_to_crontab p s) = true := by
  by_cases h : pyIn (cronJob p) s = true
  · rw [add_to_crontab_noop p s h]
    exact h
  · unfold add_to_crontab
    rw [if_neg h, pyIn_eq_true_iff]
    rw [countOcc_add_new p s (cronJob_no_newline p hp)]
    omega

/-- Counterexample to C9 as stated: starting from a crontab that already
holds the entry twice, both calls are no-ops (the substring check finds the
entry), so two entries remain — not exactly one. -/
theorem add_to_crontab_idem_counterexample :
    countOcc (cronJob (str "/a"))
        (add_to_crontab (str "/a") (add_to_crontab (str "/a")
          (cronJob (str "/a") ++ '\n' :: cronJob (str "/a")))) = 2 ∧ (2 : Nat) ≠ 1 := by
  decide

/-- C9 (amended): registering twice equals registering once — the second call
detects the existing entry and adds nothing; and when the starting crontab
contains no occurrence of the entry (and the script path holds no newline),
exactly one entry results.  (As stated the claim fails: a crontab already
holding the entry more than once keeps every copy.) -/
theorem add_to_crontab_idem (p s : List Char) (hp : '\n' ∉ p) :
    add_to_crontab p (add_to_crontab p s) = add_to_crontab p s ∧
    (countOcc (cronJob p) s = 0 →
      countOcc (cronJob p) (add_to_crontab p (add_to_crontab p s)) = 1) := by
  have hcont := add_to_crontab_contains p s hp
  have hidem := add_to_crontab_noop p _ hcont
  refine ⟨hidem, fun h0 => ?_⟩
  rw [hidem]
  by_cases h : pyIn (cronJob p) s = true
  · rw [pyIn_eq_true_iff] at h
    omega
  · unfold add_to_crontab
    rw [if_neg h, countOcc_add_new p s (cronJob_no_newline p hp),
      countOcc_strip_zero _ _ h0]

/-- Witness for `add_to_crontab_idem`: registering the path `/a` twice onto
an empty crontab is idempotent and yields exactly one entry. -/
theorem add_to_crontab_idem_witness :
    add_to_crontab (str "/a") (add_to_crontab (str "/a") []) =
        add_to_crontab (str "/a") [] ∧
      countOcc (cronJob (str "/a"))
        (add_to_crontab (str "/a") (add_to_crontab (str "/a") [])) = 1 := by
  have h := add_to_crontab_idem (str "/a") [] (by decide)
  exact ⟨h.1, h.2 (by decide)⟩

end TerrariaSetup
